/-
Verification of the ProjectClaim custom-resource adapter
(pkg/controller/projectclaim/customresourceadapter.go).

The Go adapter mutates an in-memory ProjectClaim and talks to a
declarative resource store through get/create/update/delete primitives.
We embed it shallowly: the adapter state and the store are explicit
values, every adapter method is a pure function from (adapter, store)
to (adapter, store, result), and store failures are injected through
boolean flags on the store.  Timestamps (metav1.Time) are modelled as
Nat and passed in where the Go code calls metav1.Now().
-/
import Mathlib

/-- Store / API errors as the adapter distinguishes them:
`notFound` (errors.IsNotFound) versus any other (transient) failure. -/
inductive StoreErr where
  | notFound
  | transient
deriving DecidableEq, Repr

/-- types.NamespacedName / gcpv1alpha1.NamespacedName.
`nspace` models the Go field `Namespace` (a Lean keyword). -/
structure NamespacedName where
  name : String
  nspace : String
deriving DecidableEq, Repr

/-- gcpv1alpha1.ProjectClaimCondition: Type, Status, Reason, Message,
LastTransitionTime, LastProbeTime.  `condType` models the field `Type`. -/
structure ProjectClaimCondition where
  condType : String
  status : String
  reason : String
  message : String
  lastTransitionTime : Nat
  lastProbeTime : Nat
deriving DecidableEq, Repr

/-- gcpv1alpha1.ProjectClaim, flattened: ObjectMeta (namespace, name,
finalizers, deletionTimestamp), Spec (LegalEntity — opaque payload —,
ProjectReferenceCRLink) and Status (State, Conditions).  `conditions`
is an `Option` so that a nil slice is distinct from an empty one. -/
structure ProjectClaim where
  nspace : String
  name : String
  finalizers : List String
  deletionTimestamp : Option Nat
  legalEntity : String
  projectReferenceCRLink : NamespacedName
  state : String
  conditions : Option (List ProjectClaimCondition)
deriving DecidableEq, Repr

/-- gcpv1alpha1.ProjectReference, flattened: ObjectMeta (name, namespace,
deletionTimestamp) and Spec (GCPProjectID, ProjectClaimCRLink, LegalEntity). -/
structure ProjectReference where
  name : String
  nspace : String
  gcpProjectID : String
  projectClaimCRLink : NamespacedName
  legalEntity : String
  deletionTimestamp : Option Nat
deriving DecidableEq, Repr

/-- const ProjectClaimFinalizer (customresourceadapter.go line 31). -/
def ProjectClaimFinalizer : String := "finalizer.gcp.managed.openshift.io"

/-- Modelled from the spec: the fixed target namespace of every derived
reference (gcpv1alpha1.ProjectReferenceNamespace, apis package not in src). -/
def ProjectReferenceNamespace : String := "gcp-project-operator"

/-- Modelled from the spec: the initial phase of the ordered enumeration
(gcpv1alpha1.ClaimStatusPending, apis package not in src). -/
def ClaimStatusPending : String := "Pending"

/-- Modelled from the spec: the second phase of the ordered enumeration
(gcpv1alpha1.ClaimStatusPendingProject, apis package not in src). -/
def ClaimStatusPendingProject : String := "PendingProject"

/-- Modelled from the spec: the tracked error condition kind
(gcpv1alpha1.ClaimConditionError, apis package not in src). -/
def ClaimConditionError : String := "Error"

/-- corev1.ConditionTrue. -/
def ConditionTrue : String := "True"

/-- corev1.ConditionFalse. -/
def ConditionFalse : String := "False"

/-- util.Contains from openshift/cluster-api (dependency, not in src);
the spec describes the marker helpers as set-membership on the ordered
sequence of finalizer strings. -/
def utilContains (list : List String) (s : String) : Bool :=
  list.any (fun item => item = s)

/-- util.Filter from openshift/cluster-api (dependency, not in src): keeps
every item different from `strToFilter`, preserving order — the spec:
"filters the marker out (leaving all other markers untouched)". -/
def utilFilter (list : List String) (strToFilter : String) : List String :=
  list.filter (fun item => item ≠ strToFilter)

/-- The resource store, as the adapter sees it.  `refs` is the content at
ProjectReference keys (namespace, name).  The `…Err` flags inject a
transient store failure into the corresponding primitive.  `deletedRefs`
logs every delete call issued; `claimUpdates` / `statusUpdates` count the
Update / Status().Update calls issued; `persistedClaim` is the claim copy
the store accepted last. -/
structure Store where
  refs : List ((String × String) × ProjectReference) := []
  getErr : Bool := false
  deleteErr : Bool := false
  updateErr : Bool := false
  statusUpdateErr : Bool := false
  deletedRefs : List (String × String) := []
  persistedClaim : Option ProjectClaim := none
  claimUpdates : Nat := 0
  statusUpdates : Nat := 0
deriving DecidableEq, Repr

/-- Association lookup on the reference table. -/
def lookupRef : List ((String × String) × ProjectReference) → (String × String) →
    Option ProjectReference
  | [], _ => none
  | (k, r) :: rest, key => if k = key then some r else lookupRef rest key

/-- client.Get on a ProjectReference key: injected transient failure, else
NotFound when the key is absent, else the record. -/
def Store.getRef (s : Store) (key : String × String) : Except StoreErr ProjectReference :=
  if s.getErr then .error .transient
  else
    match lookupRef s.refs key with
    | some r => .ok r
    | none => .error .notFound

/-- client.Delete on a ProjectReference: the call is logged; actual
destruction is asynchronous (observed as NotFound on a later lookup),
so the table is not touched here. -/
def Store.deleteRef (s : Store) (key : String × String) : Store × Option StoreErr :=
  if s.deleteErr then (s, some .transient)
  else ({ s with deletedRefs := key :: s.deletedRefs }, none)

/-- client.Update on the claim: the call is always counted; on success the
store keeps the persisted copy. -/
def Store.update (s : Store) (c : ProjectClaim) : Store × Option StoreErr :=
  if s.updateErr then ({ s with claimUpdates := s.claimUpdates + 1 }, some .transient)
  else ({ s with claimUpdates := s.claimUpdates + 1, persistedClaim := some c }, none)

/-- client.Status().Update on the claim: separate channel, same shape. -/
def Store.statusUpdate (s : Store) (c : ProjectClaim) : Store × Option StoreErr :=
  if s.statusUpdateErr then ({ s with statusUpdates := s.statusUpdates + 1 }, some .transient)
  else ({ s with statusUpdates := s.statusUpdates + 1, persistedClaim := some c }, none)

/-- The CustomResourceAdapter: the in-memory claim snapshot and the
expected (derived) reference.  Logger and client handle are external. -/
structure CustomResourceAdapter where
  projectClaim : ProjectClaim
  projectReference : ProjectReference
deriving DecidableEq, Repr

/-- newMatchingProjectReference (lines 38–54): name is
namespace + "-" + name of the claim, namespace is the fixed target
namespace, empty provider id, back-link to the claim, copied payload. -/
def newMatchingProjectReference (projectClaim : ProjectClaim) : ProjectReference :=
  { name := projectClaim.nspace ++ "-" ++ projectClaim.name
    nspace := ProjectReferenceNamespace
    gcpProjectID := ""
    projectClaimCRLink := { name := projectClaim.name, nspace := projectClaim.nspace }
    legalEntity := projectClaim.legalEntity
    deletionTimestamp := none }

/-- NewCustomResourceAdapter (lines 33–36). -/
def NewCustomResourceAdapter (projectClaim : ProjectClaim) : CustomResourceAdapter :=
  { projectClaim := projectClaim
    projectReference := newMatchingProjectReference projectClaim }

/-- The store key of the adapter's derived reference. -/
def refKey (c : CustomResourceAdapter) : String × String :=
  (c.projectReference.nspace, c.projectReference.name)

/-- ProjectReferenceExists (lines 56–66): NotFound maps to (false, nil),
any other lookup failure is propagated with false alongside. -/
def ProjectReferenceExists (c : CustomResourceAdapter) (s : Store) :
    Bool × Option StoreErr :=
  match s.getRef (refKey c) with
  | .error e => if e = .notFound then (false, none) else (false, some e)
  | .ok _ => (true, none)

/-- IsProjectClaimDeletion (lines 68–70). -/
def IsProjectClaimDeletion (c : CustomResourceAdapter) : Bool :=
  c.projectClaim.deletionTimestamp.isSome

/-- IsProjectReferenceDeletion (lines 72–74): checked on the adapter's
in-memory reference object. -/
def IsProjectReferenceDeletion (c : CustomResourceAdapter) : Bool :=
  c.projectReference.deletionTimestamp.isSome

/-- ObjectState (line 24): a named boolean. -/
abbrev ObjectState := Bool

/-- ObjectModified (line 27). -/
def ObjectModified : ObjectState := true

/-- ObjectUnchanged (line 28). -/
def ObjectUnchanged : ObjectState := false

/-- Result of an adapter method returning only an error. -/
structure UpdResult where
  adapter : CustomResourceAdapter
  store : Store
  err : Option StoreErr
deriving DecidableEq, Repr

/-- Result of an adapter method returning (ObjectState, error). -/
structure StResult where
  adapter : CustomResourceAdapter
  store : Store
  objectState : ObjectState
  err : Option StoreErr
deriving DecidableEq, Repr

/-- EnsureFinalizerDeleted (lines 76–84): if the tracked marker is among
the claim's finalizers, filter it out and persist; otherwise no-op. -/
def EnsureFinalizerDeleted (c : CustomResourceAdapter) (s : Store) : UpdResult :=
  let finalizers := c.projectClaim.finalizers
  if utilContains finalizers ProjectClaimFinalizer then
    let c' := { c with projectClaim :=
      { c.projectClaim with finalizers := utilFilter finalizers ProjectClaimFinalizer } }
    let (s', e) := s.update c'.projectClaim
    { adapter := c', store := s', err := e }
  else
    { adapter := c, store := s, err := none }

/-- FinalizeProjectClaim (lines 86–110): check existence; if the reference
exists and its (in-memory) deletion is not requested, issue a delete; if
the reference does not exist, delete the finalizer and report Modified;
otherwise report Unchanged. -/
def FinalizeProjectClaim (c : CustomResourceAdapter) (s : Store) : StResult :=
  match ProjectReferenceExists c s with
  | (_, some err) => { adapter := c, store := s, objectState := ObjectUnchanged, err := some err }
  | (projectReferenceExists, none) =>
    let projectReferenceDeletionRequested := IsProjectReferenceDeletion c
    let (s1, delErr) :=
      if projectReferenceExists && !projectReferenceDeletionRequested then
        s.deleteRef (refKey c)
      else (s, none)
    match delErr with
    | some err => { adapter := c, store := s1, objectState := ObjectUnchanged, err := some err }
    | none =>
      if !projectReferenceExists then
        let r := EnsureFinalizerDeleted c s1
        match r.err with
        | some err =>
          { adapter := r.adapter, store := r.store, objectState := ObjectUnchanged, err := some err }
        | none =>
          { adapter := r.adapter, store := r.store, objectState := ObjectModified, err := none }
      else
        { adapter := c, store := s1, objectState := ObjectUnchanged, err := none }

/-- EnsureProjectClaimInitialized (lines 112–123): if the condition list is
nil, set it to the empty list and persist the status sub-resource. -/
def EnsureProjectClaimInitialized (c : CustomResourceAdapter) (s : Store) : StResult :=
  match c.projectClaim.conditions with
  | none =>
    let c' := { c with projectClaim := { c.projectClaim with conditions := some [] } }
    let (s', e) := s.statusUpdate c'.projectClaim
    match e with
    | some err =>
      { adapter := c', store := s', objectState := ObjectUnchanged, err := some err }
    | none =>
      { adapter := c', store := s', objectState := ObjectModified, err := none }
  | some _ => { adapter := c, store := s, objectState := ObjectUnchanged, err := none }

/-- EnsureProjectReferenceLink (lines 125–139). -/
def EnsureProjectReferenceLink (c : CustomResourceAdapter) (s : Store) : StResult :=
  let expectedLink : NamespacedName :=
    { name := c.projectReference.name, nspace := c.projectReference.nspace }
  if c.projectClaim.projectReferenceCRLink = expectedLink then
    { adapter := c, store := s, objectState := ObjectUnchanged, err := none }
  else
    let c' := { c with projectClaim :=
      { c.projectClaim with projectReferenceCRLink := expectedLink } }
    let (s', e) := s.update c'.projectClaim
    match e with
    | some err =>
      { adapter := c', store := s', objectState := ObjectUnchanged, err := some err }
    | none =>
      { adapter := c', store := s', objectState := ObjectModified, err := none }

/-- EnsureFinalizer (lines 141–154): append the tracked marker if absent
and persist; no-op if already present. -/
def EnsureFinalizer (c : CustomResourceAdapter) (s : Store) : StResult :=
  if !(utilContains c.projectClaim.finalizers ProjectClaimFinalizer) then
    let c' := { c with projectClaim :=
      { c.projectClaim with
        finalizers := c.projectClaim.finalizers ++ [ProjectClaimFinalizer] } }
    let (s', e) := s.update c'.projectClaim
    match e with
    | some err =>
      { adapter := c', store := s', objectState := ObjectUnchanged, err := some err }
    | none =>
      { adapter := c', store := s', objectState := ObjectModified, err := none }
  else
    { adapter := c, store := s, objectState := ObjectUnchanged, err := none }

/-- StatusUpdate (lines 190–198): persist the status sub-resource. -/
def StatusUpdate (c : CustomResourceAdapter) (s : Store) : UpdResult :=
  let (s', e) := s.statusUpdate c.projectClaim
  { adapter := c, store := s', err := e }

/-- EnsureProjectClaimState (lines 168–187): no-op when already at the
target; Pending only from the empty phase; PendingProject only from
Pending; otherwise write the phase and persist the status. -/
def EnsureProjectClaimState (c : CustomResourceAdapter) (s : Store) (state : String) :
    UpdResult :=
  if c.projectClaim.state = state then
    { adapter := c, store := s, err := none }
  else if state = ClaimStatusPending ∧ c.projectClaim.state ≠ "" then
    { adapter := c, store := s, err := none }
  else if state = ClaimStatusPendingProject ∧ c.projectClaim.state ≠ ClaimStatusPending then
    { adapter := c, store := s, err := none }
  else
    let c' := { c with projectClaim := { c.projectClaim with state := state } }
    StatusUpdate c' s

/-- The loop of FindProjectClaimCondition (lines 237–247): first entry of
the tracked kind, if any. -/
def findProjectClaimConditionList : List ProjectClaimCondition → Option ProjectClaimCondition
  | [] => none
  | cond :: rest =>
    if cond.condType = ClaimConditionError then some cond
    else findProjectClaimConditionList rest

/-- FindProjectClaimCondition (lines 237–247).  The Go function returns a
pointer into the list; here the in-place update is rendered by
`updateFirstErrorCondition` below. -/
def FindProjectClaimCondition (c : CustomResourceAdapter) : Option ProjectClaimCondition :=
  findProjectClaimConditionList (c.projectClaim.conditions.getD [])

/-- Applying an update function through the pointer FindProjectClaimCondition
returned: the first entry of the tracked kind is replaced, everything
else is untouched. -/
def updateFirstErrorCondition (l : List ProjectClaimCondition)
    (f : ProjectClaimCondition → ProjectClaimCondition) : List ProjectClaimCondition :=
  match l with
  | [] => []
  | cond :: rest =>
    if cond.condType = ClaimConditionError then f cond :: rest
    else cond :: updateFirstErrorCondition rest f

/-- The in-place mutation of the existing condition (lines 221–228): the
transition timestamp moves to `now` only when the stored truth value
changes; status/reason/message/probe timestamp are overwritten. -/
def applyCondition (cond : ProjectClaimCondition) (status reason message : String)
    (now : Nat) : ProjectClaimCondition :=
  { cond with
    lastTransitionTime := if cond.status ≠ status then now else cond.lastTransitionTime
    status := status
    reason := reason
    message := message
    lastProbeTime := now }

/-- SetProjectClaimCondition (lines 201–232): when no tracked entry exists,
append one only for an affirmative status; when one exists, update it in
place; always call StatusUpdate afterwards. -/
def SetProjectClaimCondition (c : CustomResourceAdapter) (s : Store)
    (status reason message : String) (now : Nat) : UpdResult :=
  let conds := c.projectClaim.conditions.getD []
  let newCond : ProjectClaimCondition :=
    { condType := ClaimConditionError
      status := status
      reason := reason
      message := message
      lastTransitionTime := now
      lastProbeTime := now }
  let c' :=
    match findProjectClaimConditionList conds with
    | none =>
      if status = ConditionTrue then
        { c with projectClaim := { c.projectClaim with conditions := some (conds ++ [newCond]) } }
      else c
    | some _ =>
      let updated := updateFirstErrorCondition conds
        (fun cond => applyCondition cond status reason message now)
      { c with projectClaim := { c.projectClaim with conditions := some updated } }
  StatusUpdate c' s

/-- Store.createRef: client.Create, failing when the key already exists. -/
def Store.createRef (s : Store) (r : ProjectReference) : Store × Option StoreErr :=
  match lookupRef s.refs (r.nspace, r.name) with
  | some _ => (s, some .transient)
  | none => ({ s with refs := ((r.nspace, r.name), r) :: s.refs }, none)

/-- EnsureProjectReferenceExists (lines 156–166). -/
def EnsureProjectReferenceExists (c : CustomResourceAdapter) (s : Store) :
    Store × Option StoreErr :=
  match ProjectReferenceExists c s with
  | (_, some err) => (s, some err)
  | (projectReferenceExists, none) =>
    if !projectReferenceExists then s.createRef c.projectReference
    else (s, none)

/-- Tracked-kind entries of a condition list, in order. -/
def errorConds (l : List ProjectClaimCondition) : List ProjectClaimCondition :=
  l.filter (fun cond => cond.condType = ClaimConditionError)

/-- A concrete claim used to exercise the adapter on closed inputs. -/
def claimEx : ProjectClaim :=
  { nspace := "team-a"
    name := "claim1"
    finalizers := []
    deletionTimestamp := none
    legalEntity := "payload"
    projectReferenceCRLink := { name := "", nspace := "" }
    state := ""
    conditions := none }

/-- A store with no records and no injected failures. -/
def storeEx : Store := {}

/-- A claim whose removal was requested, with no finalizers and an
initialized (empty) condition list. -/
def claimDel : ProjectClaim :=
  { claimEx with deletionTimestamp := some 1, conditions := some [] }

/-- Two claims with distinct (namespace, name) pairs whose derived
reference identities coincide. -/
def claimHyphenA : ProjectClaim := { claimEx with nspace := "a-b", name := "c" }

/-- Second half of the colliding pair. -/
def claimHyphenB : ProjectClaim := { claimEx with nspace := "a", name := "b-c" }

/-- A claim carrying an unrelated finalizer marker together with the
tracked one. -/
def claimTwoFin : ProjectClaim :=
  { claimEx with finalizers := ["other.example.io/marker", ProjectClaimFinalizer] }

/-- A store holding the reference derived from `claimEx`. -/
def storeWithRef : Store :=
  { refs := [(refKey (NewCustomResourceAdapter claimEx),
              newMatchingProjectReference claimEx)] }

/-- A concrete error-kind condition entry with truth value "True". -/
def condTrueEx : ProjectClaimCondition :=
  { condType := ClaimConditionError
    status := ConditionTrue
    reason := "r0"
    message := "m0"
    lastTransitionTime := 3
    lastProbeTime := 3 }

/-- Appending a marker makes `utilContains` find it. -/
theorem utilContains_append_self (l : List String) (x : String) :
    utilContains (l ++ [x]) x = true := by
  simp [utilContains]

/-- Filtering a marker out removes every occurrence. -/
theorem utilContains_utilFilter_self (l : List String) (x : String) :
    utilContains (utilFilter l x) x = false := by
  simp [utilContains, utilFilter]

/-- Filtering one marker leaves the multiplicity of every other string. -/
theorem count_utilFilter (l : List String) (x y : String) (h : y ≠ x) :
    (utilFilter l x).count y = l.count y := by
  induction l with
  | nil => rfl
  | cons a t ih =>
    by_cases hax : a = x
    · subst hax
      simp [utilFilter, List.filter_cons, List.count_cons, h] at ih ⊢
    · simp [utilFilter, List.filter_cons, List.count_cons, hax] at ih ⊢
      simp [ih]

/-- A NotFound lookup makes the existence check report (false, nil). -/
theorem refExists_of_notFound (c : CustomResourceAdapter) (s : Store)
    (h1 : s.getErr = false) (h2 : lookupRef s.refs (refKey c) = none) :
    ProjectReferenceExists c s = (false, none) := by
  simp [ProjectReferenceExists, Store.getRef, h1, h2]

/-- A failing lookup makes the existence check propagate the error. -/
theorem refExists_of_getErr (c : CustomResourceAdapter) (s : Store)
    (h1 : s.getErr = true) :
    ProjectReferenceExists c s = (false, some StoreErr.transient) := by
  simp [ProjectReferenceExists, Store.getRef, h1]

/-- A successful lookup makes the existence check report (true, nil). -/
theorem refExists_of_found (c : CustomResourceAdapter) (s : Store)
    (r : ProjectReference) (h1 : s.getErr = false)
    (h2 : lookupRef s.refs (refKey c) = some r) :
    ProjectReferenceExists c s = (true, none) := by
  simp [ProjectReferenceExists, Store.getRef, h1, h2]

/-- C9: ProjectReferenceExists maps NotFound to (false, nil), propagates any
other lookup failure as a non-nil error with false alongside, and returns
true exactly when the lookup succeeded. -/
theorem projectReferenceExists_error_mapping (c : CustomResourceAdapter) (s : Store) :
    (s.getErr = false → lookupRef s.refs (refKey c) = none →
      ProjectReferenceExists c s = (false, none)) ∧
    (s.getErr = true →
      ProjectReferenceExists c s = (false, some StoreErr.transient)) ∧
    (∀ r, s.getErr = false → lookupRef s.refs (refKey c) = some r →
      ProjectReferenceExists c s = (true, none)) := by
  exact ⟨refExists_of_notFound c s, refExists_of_getErr c s,
    fun r h1 h2 => refExists_of_found c s r h1 h2⟩

/-- Witness for C9 on concrete inputs: an empty store yields (false, nil),
a failing store propagates the error, a populated store yields true. -/
theorem projectReferenceExists_error_mapping_witness :
    ProjectReferenceExists (NewCustomResourceAdapter claimEx) storeEx = (false, none) ∧
    ProjectReferenceExists (NewCustomResourceAdapter claimEx) { storeEx with getErr := true }
      = (false, some StoreErr.transient) ∧
    ProjectReferenceExists (NewCustomResourceAdapter claimEx) storeWithRef = (true, none) := by
  refine ⟨?_, ?_, ?_⟩
  · exact (projectReferenceExists_error_mapping _ _).1 rfl rfl
  · exact (projectReferenceExists_error_mapping _ _).2.1 rfl
  · exact (projectReferenceExists_error_mapping _ _).2.2
      (newMatchingProjectReference claimEx) rfl (by decide)

/-- C7: EnsureFinalizer is idempotent: starting without the tracked marker
(and with a store that accepts the update), the first call appends the
marker and reports Modified, the second call is a complete no-op reporting
Unchanged; when the marker is already present the call is a no-op. -/
theorem ensureFinalizer_idempotent (c : CustomResourceAdapter) (s : Store) :
    (utilContains c.projectClaim.finalizers ProjectClaimFinalizer = false →
      s.updateErr = false →
      (EnsureFinalizer c s).objectState = ObjectModified ∧
      (EnsureFinalizer c s).adapter.projectClaim.finalizers
        = c.projectClaim.finalizers ++ [ProjectClaimFinalizer] ∧
      (EnsureFinalizer (EnsureFinalizer c s).adapter (EnsureFinalizer c s).store).objectState
        = ObjectUnchanged ∧
      (EnsureFinalizer (EnsureFinalizer c s).adapter (EnsureFinalizer c s).store).adapter
        = (EnsureFinalizer c s).adapter) ∧
    (utilContains c.projectClaim.finalizers ProjectClaimFinalizer = true →
      EnsureFinalizer c s
        = { adapter := c, store := s, objectState := ObjectUnchanged, err := none }) := by
  constructor
  · intro h1 h2
    refine ⟨?_, ?_, ?_, ?_⟩ <;>
      simp [EnsureFinalizer, Store.update, h1, h2, utilContains_append_self,
        ObjectModified, ObjectUnchanged]
  · intro h1
    simp [EnsureFinalizer, h1]

/-- Witness for C7 at a concrete claim without the marker. -/
theorem ensureFinalizer_idempotent_witness :
    (EnsureFinalizer (NewCustomResourceAdapter claimEx) storeEx).objectState = ObjectModified ∧
    (EnsureFinalizer
      (EnsureFinalizer (NewCustomResourceAdapter claimEx) storeEx).adapter
      (EnsureFinalizer (NewCustomResourceAdapter claimEx) storeEx).store).objectState
        = ObjectUnchanged := by
  have h := (ensureFinalizer_idempotent (NewCustomResourceAdapter claimEx) storeEx).1
    (by decide) rfl
  exact ⟨h.1, h.2.2.1⟩

/-- C8: EnsureFinalizerDeleted removes exactly the tracked marker: when the
marker is present it is filtered out, every other marker keeps its
multiplicity (and order, the result being the order-preserving filter);
when the marker is absent the call is a complete no-op. -/
theorem ensureFinalizerDeleted_preserves_others (c : CustomResourceAdapter) (s : Store) :
    (utilContains c.projectClaim.finalizers ProjectClaimFinalizer = true →
      (EnsureFinalizerDeleted c s).adapter.projectClaim.finalizers
        = utilFilter c.projectClaim.finalizers ProjectClaimFinalizer ∧
      utilContains (EnsureFinalizerDeleted c s).adapter.projectClaim.finalizers
        ProjectClaimFinalizer = false ∧
      (∀ y, y ≠ ProjectClaimFinalizer →
        ((EnsureFinalizerDeleted c s).adapter.projectClaim.finalizers).count y
          = c.projectClaim.finalizers.count y)) ∧
    (utilContains c.projectClaim.finalizers ProjectClaimFinalizer = false →
      EnsureFinalizerDeleted c s = { adapter := c, store := s, err := none }) := by
  constructor
  · intro h1
    refine ⟨?_, ?_, ?_⟩
    · simp [EnsureFinalizerDeleted, Store.update, h1]
    · simp [EnsureFinalizerDeleted, Store.update, h1, utilContains_utilFilter_self]
    · intro y hy
      simp [EnsureFinalizerDeleted, Store.update, h1, count_utilFilter _ _ _ hy]
  · intro h1
    simp [EnsureFinalizerDeleted, h1]

/-- Witness for C8 on the pair {A, tracked}: removal yields exactly {A}. -/
theorem ensureFinalizerDeleted_preserves_others_witness :
    (EnsureFinalizerDeleted (NewCustomResourceAdapter claimTwoFin) storeEx).adapter.projectClaim.finalizers
      = utilFilter claimTwoFin.finalizers ProjectClaimFinalizer ∧
    utilFilter claimTwoFin.finalizers ProjectClaimFinalizer = ["other.example.io/marker"] := by
  refine ⟨((ensureFinalizerDeleted_preserves_others
    (NewCustomResourceAdapter claimTwoFin) storeEx).1 (by decide)).1, by decide⟩

/-- C10: on persist failure the in-memory claim is already mutated while the
result is (Unchanged, error): EnsureFinalizer has appended the marker,
EnsureProjectClaimInitialized has set the condition list to empty, and
EnsureProjectReferenceLink has overwritten the link. -/
theorem persist_failure_not_atomic (c : CustomResourceAdapter) (s : Store) :
    (s.updateErr = true →
      utilContains c.projectClaim.finalizers ProjectClaimFinalizer = false →
      (EnsureFinalizer c s).objectState = ObjectUnchanged ∧
      (EnsureFinalizer c s).err = some StoreErr.transient ∧
      (EnsureFinalizer c s).adapter.projectClaim.finalizers
        = c.projectClaim.finalizers ++ [ProjectClaimFinalizer]) ∧
    (s.statusUpdateErr = true →
      c.projectClaim.conditions = none →
      (EnsureProjectClaimInitialized c s).objectState = ObjectUnchanged ∧
      (EnsureProjectClaimInitialized c s).err = some StoreErr.transient ∧
      (EnsureProjectClaimInitialized c s).adapter.projectClaim.conditions = some []) ∧
    (s.updateErr = true →
      c.projectClaim.projectReferenceCRLink
        ≠ { name := c.projectReference.name, nspace := c.projectReference.nspace } →
      (EnsureProjectReferenceLink c s).objectState = ObjectUnchanged ∧
      (EnsureProjectReferenceLink c s).err = some StoreErr.transient ∧
      (EnsureProjectReferenceLink c s).adapter.projectClaim.projectReferenceCRLink
        = { name := c.projectReference.name, nspace := c.projectReference.nspace }) := by
  refine ⟨?_, ?_, ?_⟩
  · intro h1 h2
    refine ⟨?_, ?_, ?_⟩ <;> simp [EnsureFinalizer, Store.update, h1, h2, ObjectUnchanged]
  · intro h1 h2
    refine ⟨?_, ?_, ?_⟩ <;>
      simp [EnsureProjectClaimInitialized, Store.statusUpdate, h1, h2, ObjectUnchanged]
  · intro h1 h2
    refine ⟨?_, ?_, ?_⟩ <;>
      simp [EnsureProjectReferenceLink, Store.update, h1, h2, ObjectUnchanged]

/-- Witness for C10 at a concrete claim against a store whose writes fail. -/
theorem persist_failure_not_atomic_witness :
    ((EnsureFinalizer (NewCustomResourceAdapter claimEx)
        { storeEx with updateErr := true }).adapter.projectClaim.finalizers
      = claimEx.finalizers ++ [ProjectClaimFinalizer]) ∧
    ((EnsureFinalizer (NewCustomResourceAdapter claimEx)
        { storeEx with updateErr := true }).objectState = ObjectUnchanged) ∧
    ((EnsureProjectClaimInitialized (NewCustomResourceAdapter claimEx)
        { storeEx with statusUpdateErr := true }).adapter.projectClaim.conditions = some []) ∧
    ((EnsureProjectReferenceLink (NewCustomResourceAdapter claimEx)
        { storeEx with updateErr := true }).adapter.projectClaim.projectReferenceCRLink
      = { name := (NewCustomResourceAdapter claimEx).projectReference.name
          nspace := (NewCustomResourceAdapter claimEx).projectReference.nspace }) := by
  have h1 := (persist_failure_not_atomic (NewCustomResourceAdapter claimEx)
    { storeEx with updateErr := true }).1 rfl (by decide)
  have h2 := ((persist_failure_not_atomic (NewCustomResourceAdapter claimEx)
    { storeEx with statusUpdateErr := true }).2.1) rfl rfl
  have h3 := ((persist_failure_not_atomic (NewCustomResourceAdapter claimEx)
    { storeEx with updateErr := true }).2.2) rfl (by decide)
  exact ⟨h1.2.2, h1.1, h2.2.2, h3.2.2⟩

/-- Pending is a non-empty phase string. -/
theorem pending_ne_empty : ClaimStatusPending ≠ "" := by decide

/-- The empty phase is not Pending. -/
theorem empty_ne_pending : "" ≠ ClaimStatusPending := by decide

/-- PendingProject is not Pending. -/
theorem pendingProject_ne_pending : ClaimStatusPendingProject ≠ ClaimStatusPending := by decide

/-- Pending is not PendingProject. -/
theorem pending_ne_pendingProject : ClaimStatusPending ≠ ClaimStatusPendingProject := by decide

/-- PendingProject is a non-empty phase string. -/
theorem pendingProject_ne_empty : ClaimStatusPendingProject ≠ "" := by decide

/-- The empty phase is not PendingProject. -/
theorem empty_ne_pendingProject : "" ≠ ClaimStatusPendingProject := by decide

/-- C2: phase advancement is monotonic over (none) → Pending →
PendingProject: the in-memory phase after a Pending call changes only from
the empty phase, after a PendingProject call only from Pending, and once
the phase is PendingProject a Pending call is a complete no-op. -/
theorem ensureProjectClaimState_monotonic (c : CustomResourceAdapter) (s : Store) :
    ((EnsureProjectClaimState c s ClaimStatusPending).adapter.projectClaim.state
      = if c.projectClaim.state = "" then ClaimStatusPending else c.projectClaim.state) ∧
    ((EnsureProjectClaimState c s ClaimStatusPendingProject).adapter.projectClaim.state
      = if c.projectClaim.state = ClaimStatusPending then ClaimStatusPendingProject
        else c.projectClaim.state) ∧
    (c.projectClaim.state = ClaimStatusPendingProject →
      EnsureProjectClaimState c s ClaimStatusPending
        = { adapter := c, store := s, err := none }) := by
  refine ⟨?_, ?_, ?_⟩
  · simp only [EnsureProjectClaimState, StatusUpdate]
    split_ifs with h1 h2 h3 <;>
      simp_all [pending_ne_empty, empty_ne_pending, pendingProject_ne_pending,
        pending_ne_pendingProject, pendingProject_ne_empty, empty_ne_pendingProject]
  · simp only [EnsureProjectClaimState, StatusUpdate]
    split_ifs with h1 h2 h3 <;>
      simp_all [pending_ne_empty, empty_ne_pending, pendingProject_ne_pending,
        pending_ne_pendingProject, pendingProject_ne_empty, empty_ne_pendingProject]
  · intro h
    simp [EnsureProjectClaimState, h, pending_ne_empty, empty_ne_pending,
      pendingProject_ne_pending, pending_ne_pendingProject, pendingProject_ne_empty,
      empty_ne_pendingProject]

/-- Witness for C2: a PendingProject claim is untouched by a Pending call,
and an empty-phase claim moves to Pending. -/
theorem ensureProjectClaimState_monotonic_witness :
    (EnsureProjectClaimState
        (NewCustomResourceAdapter { claimEx with state := ClaimStatusPendingProject })
        storeEx ClaimStatusPending
      = { adapter := NewCustomResourceAdapter { claimEx with state := ClaimStatusPendingProject }
          store := storeEx
          err := none }) ∧
    (EnsureProjectClaimState (NewCustomResourceAdapter claimEx) storeEx
        ClaimStatusPending).adapter.projectClaim.state = ClaimStatusPending := by
  constructor
  · exact (ensureProjectClaimState_monotonic _ _).2.2 rfl
  · have h := (ensureProjectClaimState_monotonic (NewCustomResourceAdapter claimEx) storeEx).1
    simpa [NewCustomResourceAdapter, claimEx] using h

/-- A freshly constructed adapter's expected reference never carries a
deletion request (newMatchingProjectReference leaves the timestamp empty). -/
theorem isProjectReferenceDeletion_new (pc : ProjectClaim) :
    IsProjectReferenceDeletion (NewCustomResourceAdapter pc) = false := rfl

/-- C1: deletion ordering.  While the looked-up reference exists (and the
reference carries no deletion request), FinalizeProjectClaim issues a
delete against the reference's key, leaves the claim (and its finalizer)
untouched and reports Unchanged; on a later call where the lookup is
NotFound, the tracked finalizer is removed and the call reports Modified. -/
theorem finalizeProjectClaim_deletion_ordering (pc : ProjectClaim) (s : Store)
    (r : ProjectReference) :
    (s.getErr = false →
      lookupRef s.refs (refKey (NewCustomResourceAdapter pc)) = some r →
      r.deletionTimestamp = none →
      s.deleteErr = false →
      (FinalizeProjectClaim (NewCustomResourceAdapter pc) s).store.deletedRefs
        = refKey (NewCustomResourceAdapter pc) :: s.deletedRefs ∧
      (FinalizeProjectClaim (NewCustomResourceAdapter pc) s).adapter
        = NewCustomResourceAdapter pc ∧
      (FinalizeProjectClaim (NewCustomResourceAdapter pc) s).objectState = ObjectUnchanged ∧
      (FinalizeProjectClaim (NewCustomResourceAdapter pc) s).err = none) ∧
    (s.getErr = false →
      lookupRef s.refs (refKey (NewCustomResourceAdapter pc)) = none →
      s.updateErr = false →
      utilContains pc.finalizers ProjectClaimFinalizer = true →
      (FinalizeProjectClaim (NewCustomResourceAdapter pc) s).objectState = ObjectModified ∧
      (FinalizeProjectClaim (NewCustomResourceAdapter pc) s).err = none ∧
      utilContains
        (FinalizeProjectClaim (NewCustomResourceAdapter pc) s).adapter.projectClaim.finalizers
        ProjectClaimFinalizer = false) := by
  constructor
  · intro h1 h2 h3 h4
    have hex := refExists_of_found (NewCustomResourceAdapter pc) s r h1 h2
    refine ⟨?_, ?_, ?_, ?_⟩ <;>
      simp [FinalizeProjectClaim, hex, isProjectReferenceDeletion_new, Store.deleteRef, h4,
        ObjectUnchanged]
  · intro h1 h2 h3 h4
    have hex := refExists_of_notFound (NewCustomResourceAdapter pc) s h1 h2
    have hfin : utilContains (NewCustomResourceAdapter pc).projectClaim.finalizers
        ProjectClaimFinalizer = true := h4
    refine ⟨?_, ?_, ?_⟩ <;>
      simp [FinalizeProjectClaim, hex, EnsureFinalizerDeleted, hfin, Store.update, h3,
        ObjectModified, utilContains_utilFilter_self]

/-- Witness for C1: against a store holding the derived reference the call
logs a delete and reports Unchanged; against an empty store the call
removes the tracked marker and reports Modified. -/
theorem finalizeProjectClaim_deletion_ordering_witness :
    ((FinalizeProjectClaim (NewCustomResourceAdapter claimEx) storeWithRef).store.deletedRefs
      = refKey (NewCustomResourceAdapter claimEx) :: storeWithRef.deletedRefs ∧
     (FinalizeProjectClaim (NewCustomResourceAdapter claimEx) storeWithRef).objectState
      = ObjectUnchanged) ∧
    ((FinalizeProjectClaim
        (NewCustomResourceAdapter { claimEx with finalizers := [ProjectClaimFinalizer] })
        storeEx).objectState = ObjectModified ∧
     utilContains
        (FinalizeProjectClaim
          (NewCustomResourceAdapter { claimEx with finalizers := [ProjectClaimFinalizer] })
          storeEx).adapter.projectClaim.finalizers ProjectClaimFinalizer = false) := by
  constructor
  · have h := (finalizeProjectClaim_deletion_ordering claimEx storeWithRef
      (newMatchingProjectReference claimEx)).1 rfl (by decide) rfl rfl
    exact ⟨h.1, h.2.2.1⟩
  · have h := (finalizeProjectClaim_deletion_ordering
      { claimEx with finalizers := [ProjectClaimFinalizer] } storeEx
      (newMatchingProjectReference claimEx)).2 rfl rfl rfl (by decide)
    exact ⟨h.1, h.2.2⟩

/-- C3 counterexample: a claim with no finalizers at all, whose reference is
absent — FinalizeProjectClaim reports Modified even though the finalizer
removal mutated nothing, where the claim predicts changed=false. -/
theorem finalizeProjectClaim_changed_flag_counterexample :
    utilContains claimDel.finalizers ProjectClaimFinalizer = false ∧
    (FinalizeProjectClaim (NewCustomResourceAdapter claimDel) storeEx).adapter
      = NewCustomResourceAdapter claimDel ∧
    (FinalizeProjectClaim (NewCustomResourceAdapter claimDel) storeEx).objectState
      = ObjectModified := by
  refine ⟨by decide, by decide, by decide⟩

/-- C3 amended: when the reference lookup is NotFound, FinalizeProjectClaim
removes the tracked marker if present and reports changed=true
unconditionally — in particular it still reports Modified when the marker
was absent and nothing was mutated. -/
theorem finalizeProjectClaim_changed_flag (c : CustomResourceAdapter) (s : Store) :
    s.getErr = false →
    lookupRef s.refs (refKey c) = none →
    s.updateErr = false →
    (FinalizeProjectClaim c s).objectState = ObjectModified ∧
    (FinalizeProjectClaim c s).err = none ∧
    utilContains (FinalizeProjectClaim c s).adapter.projectClaim.finalizers
      ProjectClaimFinalizer = false ∧
    (utilContains c.projectClaim.finalizers ProjectClaimFinalizer = false →
      (FinalizeProjectClaim c s).adapter = c) := by
  intro h1 h2 h3
  have hex := refExists_of_notFound c s h1 h2
  by_cases hfin : utilContains c.projectClaim.finalizers ProjectClaimFinalizer = true
  · refine ⟨?_, ?_, ?_, ?_⟩ <;>
      simp [FinalizeProjectClaim, hex, EnsureFinalizerDeleted, hfin, Store.update, h3,
        ObjectModified, utilContains_utilFilter_self]
  · have hfin' : utilContains c.projectClaim.finalizers ProjectClaimFinalizer = false := by
      simpa using hfin
    refine ⟨?_, ?_, ?_, ?_⟩ <;>
      simp [FinalizeProjectClaim, hex, EnsureFinalizerDeleted, hfin', Store.update, h3,
        ObjectModified]

/-- Witness for the amended C3 at a claim without the marker: the call
reports Modified and leaves the adapter untouched. -/
theorem finalizeProjectClaim_changed_flag_witness :
    (FinalizeProjectClaim (NewCustomResourceAdapter claimDel) storeEx).objectState
      = ObjectModified ∧
    (FinalizeProjectClaim (NewCustomResourceAdapter claimDel) storeEx).adapter
      = NewCustomResourceAdapter claimDel := by
  have h := finalizeProjectClaim_changed_flag (NewCustomResourceAdapter claimDel) storeEx
    rfl rfl rfl
  exact ⟨h.1, h.2.2.2 (by decide)⟩

/-- C4 counterexample: a negative condition call on a claim with no
existing tracked condition leaves the claim unchanged, yet a status
persist call IS issued (the claim predicts no persist call at all). -/
theorem setProjectClaimCondition_negative_counterexample :
    FindProjectClaimCondition (NewCustomResourceAdapter claimDel) = none ∧
    (SetProjectClaimCondition (NewCustomResourceAdapter claimDel) storeEx
      ConditionFalse "reason" "message" 5).adapter = NewCustomResourceAdapter claimDel ∧
    (SetProjectClaimCondition (NewCustomResourceAdapter claimDel) storeEx
      ConditionFalse "reason" "message" 5).store.statusUpdates = storeEx.statusUpdates + 1 := by
  refine ⟨by decide, by decide, by decide⟩

/-- C4 amended: with no tracked condition present, a non-affirmative
SetProjectClaimCondition creates no entry and leaves the in-memory claim
unchanged, but it still issues exactly one status-update persist call. -/
theorem setProjectClaimCondition_negative (c : CustomResourceAdapter) (s : Store)
    (status reason message : String) (now : Nat) :
    findProjectClaimConditionList (c.projectClaim.conditions.getD []) = none →
    status ≠ ConditionTrue →
    (SetProjectClaimCondition c s status reason message now).adapter = c ∧
    (SetProjectClaimCondition c s status reason message now).store.statusUpdates
      = s.statusUpdates + 1 := by
  intro hfind hstatus
  by_cases herr : s.statusUpdateErr = true
  · constructor <;>
      simp [SetProjectClaimCondition, StatusUpdate, Store.statusUpdate, hfind, hstatus, herr]
  · have herr' : s.statusUpdateErr = false := by simpa using herr
    constructor <;>
      simp [SetProjectClaimCondition, StatusUpdate, Store.statusUpdate, hfind, hstatus, herr']

/-- Witness for the amended C4 at a concrete claim and store. -/
theorem setProjectClaimCondition_negative_witness :
    (SetProjectClaimCondition (NewCustomResourceAdapter claimDel) storeEx
      ConditionFalse "reason" "message" 5).adapter = NewCustomResourceAdapter claimDel ∧
    (SetProjectClaimCondition (NewCustomResourceAdapter claimDel) storeEx
      ConditionFalse "reason" "message" 5).store.statusUpdates = storeEx.statusUpdates + 1 := by
  exact setProjectClaimCondition_negative (NewCustomResourceAdapter claimDel) storeEx
    ConditionFalse "reason" "message" 5 rfl (by decide)

/-- Splitting at a separator character absent from both prefixes is
unambiguous. -/
theorem append_sep_inj (a : List Char) : ∀ (b x y : List Char), '-' ∉ a → '-' ∉ b →
    a ++ '-' :: x = b ++ '-' :: y → a = b ∧ x = y := by
  induction a with
  | nil =>
    intro b x y _ hb h
    cases b with
    | nil =>
      simp at h
      exact ⟨rfl, h⟩
    | cons d u =>
      simp at h
      exact absurd (h.1 ▸ List.mem_cons_self d u) hb
  | cons c t ih =>
    intro b x y ha hb h
    cases b with
    | nil =>
      simp at h
      exact absurd (h.1 ▸ List.mem_cons_self c t) ha
    | cons d u =>
      simp at h
      have ht := ih u x y (fun hm => ha (List.mem_cons_of_mem c hm))
        (fun hm => hb (List.mem_cons_of_mem d hm)) h.2
      exact ⟨by rw [h.1, ht.1], ht.2⟩

/-- C5 counterexample: the claims ("a-b", "c") and ("a", "b-c") have
distinct (namespace, name) pairs yet derive the same reference identity. -/
theorem newMatchingProjectReference_collision_counterexample :
    (claimHyphenA.nspace, claimHyphenA.name) ≠ (claimHyphenB.nspace, claimHyphenB.name) ∧
    (newMatchingProjectReference claimHyphenA).name
      = (newMatchingProjectReference claimHyphenB).name ∧
    (newMatchingProjectReference claimHyphenA).nspace
      = (newMatchingProjectReference claimHyphenB).nspace := by
  refine ⟨by decide, by decide, rfl⟩

/-- C5 amended: the derived reference identity is a pure function of the
claim's (namespace, name) — identical pairs give the identical identity —
and it is injective on claims whose namespaces avoid the separator
character '-'; without that restriction, identities can collide. -/
theorem newMatchingProjectReference_identity (c1 c2 : ProjectClaim) :
    ((c1.nspace = c2.nspace ∧ c1.name = c2.name) →
      (newMatchingProjectReference c1).name = (newMatchingProjectReference c2).name ∧
      (newMatchingProjectReference c1).nspace = (newMatchingProjectReference c2).nspace) ∧
    ('-' ∉ c1.nspace.data → '-' ∉ c2.nspace.data →
      (newMatchingProjectReference c1).name = (newMatchingProjectReference c2).name →
      c1.nspace = c2.nspace ∧ c1.name = c2.name) := by
  constructor
  · intro h
    exact ⟨by simp [newMatchingProjectReference, h.1, h.2], rfl⟩
  · intro h1 h2 h
    have hname : c1.nspace ++ "-" ++ c1.name = c2.nspace ++ "-" ++ c2.name := h
    rw [String.ext_iff] at hname
    simp only [String.data_append] at hname
    simp only [List.append_assoc, List.singleton_append] at hname
    have hs := append_sep_inj c1.nspace.data c2.nspace.data c1.name.data c2.name.data
      h1 h2 hname
    exact ⟨String.ext hs.1, String.ext hs.2⟩

/-- Witness for the amended C5 at concrete hyphen-free namespaces. -/
theorem newMatchingProjectReference_identity_witness :
    (newMatchingProjectReference { claimEx with nspace := "teama" }).name
      = (newMatchingProjectReference { claimEx with nspace := "teama", legalEntity := "other" }).name ∧
    ProjectClaim.nspace { claimEx with nspace := "teama" }
      = ProjectClaim.nspace { claimEx with nspace := "teama", legalEntity := "other" } := by
  constructor
  · exact ((newMatchingProjectReference_identity { claimEx with nspace := "teama" }
      { claimEx with nspace := "teama", legalEntity := "other" }).1 ⟨rfl, rfl⟩).1
  · exact ((newMatchingProjectReference_identity { claimEx with nspace := "teama" }
      { claimEx with nspace := "teama", legalEntity := "other" }).2
      (by decide) (by decide) (by decide)).1

/-- The scan finds nothing exactly when the list holds no tracked entry. -/
theorem findCondition_none_iff (l : List ProjectClaimCondition) :
    findProjectClaimConditionList l = none ↔ errorConds l = [] := by
  induction l with
  | nil => simp [findProjectClaimConditionList, errorConds]
  | cons c t ih =>
    by_cases hc : c.condType = ClaimConditionError
    · simp [findProjectClaimConditionList, errorConds, List.filter_cons, hc]
    · simp [findProjectClaimConditionList, errorConds, List.filter_cons, hc] at ih ⊢
      exact ih

/-- The scan returns the head of the tracked-entry sublist. -/
theorem findCondition_of_errorConds (l : List ProjectClaimCondition)
    (e : ProjectClaimCondition) (rest : List ProjectClaimCondition)
    (h : errorConds l = e :: rest) : findProjectClaimConditionList l = some e := by
  induction l with
  | nil => simp [errorConds] at h
  | cons c t ih =>
    by_cases hc : c.condType = ClaimConditionError
    · simp [errorConds, List.filter_cons, hc] at h
      obtain ⟨he, hrest⟩ := h
      subst he
      simp [findProjectClaimConditionList, hc]
    · simp [errorConds, List.filter_cons, hc] at h
      simp [findProjectClaimConditionList, hc]
      exact ih h

/-- A successful scan exposes the tracked-entry sublist's head. -/
theorem errorConds_of_findCondition (l : List ProjectClaimCondition)
    (e : ProjectClaimCondition) (h : findProjectClaimConditionList l = some e) :
    ∃ rest, errorConds l = e :: rest := by
  induction l with
  | nil => simp [findProjectClaimConditionList] at h
  | cons c t ih =>
    by_cases hc : c.condType = ClaimConditionError
    · simp [findProjectClaimConditionList, hc] at h
      subst h
      exact ⟨errorConds t, by simp [errorConds, List.filter_cons, hc]⟩
    · simp [findProjectClaimConditionList, hc] at h
      obtain ⟨rest, hrest⟩ := ih h
      exact ⟨rest, by simp [errorConds, List.filter_cons, hc] at hrest ⊢; exact hrest⟩

/-- Updating the first tracked entry in place rewrites the head of the
tracked-entry sublist and nothing else, provided the update keeps the
entry's kind. -/
theorem errorConds_updateFirst (l : List ProjectClaimCondition)
    (e : ProjectClaimCondition) (rest : List ProjectClaimCondition)
    (f : ProjectClaimCondition → ProjectClaimCondition)
    (hf : (f e).condType = ClaimConditionError)
    (h : errorConds l = e :: rest) :
    errorConds (updateFirstErrorCondition l f) = f e :: rest := by
  induction l with
  | nil => simp [errorConds] at h
  | cons c t ih =>
    by_cases hc : c.condType = ClaimConditionError
    · simp [errorConds, List.filter_cons, hc] at h
      obtain ⟨he, hrest⟩ := h
      subst he
      simp [updateFirstErrorCondition, hc, errorConds, List.filter_cons, hf]
      exact hrest
    · simp [errorConds, List.filter_cons, hc] at h
      simp [updateFirstErrorCondition, hc, errorConds, List.filter_cons]
      have := ih h
      simpa [errorConds] using this

/-- applyCondition never changes the entry's kind. -/
theorem applyCondition_condType (cond : ProjectClaimCondition)
    (status reason message : String) (now : Nat) :
    (applyCondition cond status reason message now).condType = cond.condType := rfl

/-- StatusUpdate leaves the in-memory adapter untouched. -/
theorem statusUpdate_adapter (c : CustomResourceAdapter) (s : Store) :
    (StatusUpdate c s).adapter = c := by
  cases h : s.statusUpdateErr <;> simp [StatusUpdate, Store.statusUpdate, h]

/-- With no tracked entry present, an affirmative call appends the new
entry (both timestamps at now) to the condition list. -/
theorem setCondition_conditions_of_none (c : CustomResourceAdapter) (s : Store)
    (l : List ProjectClaimCondition) (h0 : c.projectClaim.conditions = some l)
    (hf : findProjectClaimConditionList l = none) (reason message : String) (now : Nat) :
    ∃ n : ProjectClaimCondition,
      (SetProjectClaimCondition c s ConditionTrue reason message now).adapter.projectClaim.conditions
        = some (l ++ [n]) ∧
      n.condType = ClaimConditionError ∧ n.status = ConditionTrue ∧
      n.reason = reason ∧ n.message = message ∧
      n.lastTransitionTime = now ∧ n.lastProbeTime = now := by
  refine ⟨⟨ClaimConditionError, ConditionTrue, reason, message, now, now⟩,
    ?_, rfl, rfl, rfl, rfl, rfl, rfl⟩
  cases h : s.statusUpdateErr <;>
    simp [SetProjectClaimCondition, StatusUpdate, Store.statusUpdate, h0, hf, h]

/-- With a tracked entry present, a call updates the first tracked entry
in place. -/
theorem setCondition_conditions_of_some (c : CustomResourceAdapter) (s : Store)
    (l : List ProjectClaimCondition) (e : ProjectClaimCondition)
    (h0 : c.projectClaim.conditions = some l)
    (hf : findProjectClaimConditionList l = some e)
    (status reason message : String) (now : Nat) :
    (SetProjectClaimCondition c s status reason message now).adapter.projectClaim.conditions
      = some (updateFirstErrorCondition l
          (fun cond => applyCondition cond status reason message now)) := by
  cases h : s.statusUpdateErr <;>
    simp [SetProjectClaimCondition, StatusUpdate, Store.statusUpdate, h0, hf, h]

/-- The head of the tracked-entry sublist is of the tracked kind. -/
theorem condType_of_errorConds_head (l : List ProjectClaimCondition)
    (e : ProjectClaimCondition) (rest : List ProjectClaimCondition)
    (h : errorConds l = e :: rest) : e.condType = ClaimConditionError := by
  have hm : e ∈ errorConds l := by rw [h]; exact List.mem_cons_self e rest
  simp [errorConds, List.mem_filter] at hm
  exact hm.2

/-- Appending a tracked entry to a list with no tracked entry yields a
singleton tracked-entry sublist. -/
theorem errorConds_append_tracked (l : List ProjectClaimCondition)
    (n : ProjectClaimCondition) (hl : errorConds l = [])
    (hn : n.condType = ClaimConditionError) : errorConds (l ++ [n]) = [n] := by
  simp [errorConds, List.filter_append] at hl ⊢
  simp [hn]
  exact hl

/-- C6: the tracked error condition is a single logical slot.  From a
condition list with at most one tracked entry, two successive affirmative
calls leave exactly one tracked entry carrying the later reason and
message with the transition timestamp unchanged by the second call; and a
call that flips the stored truth value stamps the transition time with
now. -/
theorem setProjectClaimCondition_single_slot (c : CustomResourceAdapter) (s : Store)
    (l : List ProjectClaimCondition)
    (h0 : c.projectClaim.conditions = some l)
    (hle : (errorConds l).length ≤ 1) :
    (∀ (r1 m1 r2 m2 : String) (t1 t2 : Nat), r1 ≠ r2 →
      ∃ (e1 e2 : ProjectClaimCondition) (l1 l2 : List ProjectClaimCondition),
        (SetProjectClaimCondition c s ConditionTrue r1 m1 t1).adapter.projectClaim.conditions
          = some l1 ∧
        errorConds l1 = [e1] ∧
        (SetProjectClaimCondition
          (SetProjectClaimCondition c s ConditionTrue r1 m1 t1).adapter
          (SetProjectClaimCondition c s ConditionTrue r1 m1 t1).store
          ConditionTrue r2 m2 t2).adapter.projectClaim.conditions = some l2 ∧
        errorConds l2 = [e2] ∧
        e2.reason = r2 ∧ e2.message = m2 ∧ e2.status = ConditionTrue ∧
        e2.lastTransitionTime = e1.lastTransitionTime) ∧
    (∀ (st r m : String) (t : Nat) (e : ProjectClaimCondition),
      errorConds l = [e] → e.status ≠ st →
      ∃ (e' : ProjectClaimCondition) (l' : List ProjectClaimCondition),
        (SetProjectClaimCondition c s st r m t).adapter.projectClaim.conditions = some l' ∧
        errorConds l' = [e'] ∧ e'.lastTransitionTime = t ∧ e'.status = st ∧
        e'.reason = r ∧ e'.message = m) := by
  constructor
  · intro r1 m1 r2 m2 t1 t2 hne
    rcases hf : findProjectClaimConditionList l with _ | e0
    · have hl : errorConds l = [] := (findCondition_none_iff l).mp hf
      obtain ⟨n, hcond1, hnT, hnS, hnR, hnM, hnLT, hnLP⟩ :=
        setCondition_conditions_of_none c s l h0 hf r1 m1 t1
      have hl1 : errorConds (l ++ [n]) = [n] := errorConds_append_tracked l n hl hnT
      have hf1 : findProjectClaimConditionList (l ++ [n]) = some n :=
        findCondition_of_errorConds _ n [] hl1
      have hcond2 := setCondition_conditions_of_some
        (SetProjectClaimCondition c s ConditionTrue r1 m1 t1).adapter
        (SetProjectClaimCondition c s ConditionTrue r1 m1 t1).store
        (l ++ [n]) n hcond1 hf1 ConditionTrue r2 m2 t2
      have hl2 : errorConds (updateFirstErrorCondition (l ++ [n])
          (fun cond => applyCondition cond ConditionTrue r2 m2 t2))
          = [applyCondition n ConditionTrue r2 m2 t2] :=
        errorConds_updateFirst (l ++ [n]) n []
          (fun cond => applyCondition cond ConditionTrue r2 m2 t2)
          (by rw [applyCondition_condType]; exact hnT) hl1
      refine ⟨n, applyCondition n ConditionTrue r2 m2 t2, l ++ [n],
        updateFirstErrorCondition (l ++ [n])
          (fun cond => applyCondition cond ConditionTrue r2 m2 t2),
        hcond1, hl1, hcond2, hl2, rfl, rfl, rfl, ?_⟩
      simp [applyCondition, hnS]
    · obtain ⟨rest, hrest⟩ := errorConds_of_findCondition l e0 hf
      have hrest0 : rest = [] := by
        rw [hrest] at hle
        simpa using hle
      subst hrest0
      have heT : e0.condType = ClaimConditionError :=
        condType_of_errorConds_head l e0 [] hrest
      have hcond1 := setCondition_conditions_of_some c s l e0 h0 hf ConditionTrue r1 m1 t1
      have hl1 : errorConds (updateFirstErrorCondition l
          (fun cond => applyCondition cond ConditionTrue r1 m1 t1))
          = [applyCondition e0 ConditionTrue r1 m1 t1] :=
        errorConds_updateFirst l e0 []
          (fun cond => applyCondition cond ConditionTrue r1 m1 t1)
          (by rw [applyCondition_condType]; exact heT) hrest
      have hf1 := findCondition_of_errorConds _ _ [] hl1
      have hcond2 := setCondition_conditions_of_some
        (SetProjectClaimCondition c s ConditionTrue r1 m1 t1).adapter
        (SetProjectClaimCondition c s ConditionTrue r1 m1 t1).store
        (updateFirstErrorCondition l
          (fun cond => applyCondition cond ConditionTrue r1 m1 t1))
        (applyCondition e0 ConditionTrue r1 m1 t1) hcond1 hf1 ConditionTrue r2 m2 t2
      have hl2 : errorConds (updateFirstErrorCondition
          (updateFirstErrorCondition l
            (fun cond => applyCondition cond ConditionTrue r1 m1 t1))
          (fun cond => applyCondition cond ConditionTrue r2 m2 t2))
          = [applyCondition (applyCondition e0 ConditionTrue r1 m1 t1) ConditionTrue r2 m2 t2] :=
        errorConds_updateFirst _ (applyCondition e0 ConditionTrue r1 m1 t1) []
          (fun cond => applyCondition cond ConditionTrue r2 m2 t2)
          (by rw [applyCondition_condType, applyCondition_condType]; exact heT) hl1
      refine ⟨applyCondition e0 ConditionTrue r1 m1 t1,
        applyCondition (applyCondition e0 ConditionTrue r1 m1 t1) ConditionTrue r2 m2 t2,
        updateFirstErrorCondition l
          (fun cond => applyCondition cond ConditionTrue r1 m1 t1),
        updateFirstErrorCondition
          (updateFirstErrorCondition l
            (fun cond => applyCondition cond ConditionTrue r1 m1 t1))
          (fun cond => applyCondition cond ConditionTrue r2 m2 t2),
        hcond1, hl1, hcond2, hl2, rfl, rfl, rfl, ?_⟩
      simp [applyCondition]
  · intro st r m t e he hst
    have hf : findProjectClaimConditionList l = some e :=
      findCondition_of_errorConds l e [] he
    have heT : e.condType = ClaimConditionError := condType_of_errorConds_head l e [] he
    have hcond := setCondition_conditions_of_some c s l e h0 hf st r m t
    have hl' : errorConds (updateFirstErrorCondition l
        (fun cond => applyCondition cond st r m t)) = [applyCondition e st r m t] :=
      errorConds_updateFirst l e [] (fun cond => applyCondition cond st r m t)
        (by rw [applyCondition_condType]; exact heT) he
    refine ⟨applyCondition e st r m t,
      updateFirstErrorCondition l (fun cond => applyCondition cond st r m t),
      hcond, hl', ?_, rfl, rfl, rfl⟩
    simp [applyCondition, hst]

/-- Witness for C6: starting from an empty condition list, two affirmative
calls leave one tracked entry with the later reason and an unchanged
transition timestamp; starting from a stored "True" entry, a "False" call
stamps the transition time. -/
theorem setProjectClaimCondition_single_slot_witness :
    (∃ (e1 e2 : ProjectClaimCondition) (l1 l2 : List ProjectClaimCondition),
      (SetProjectClaimCondition (NewCustomResourceAdapter claimDel) storeEx
        ConditionTrue "a" "ma" 1).adapter.projectClaim.conditions = some l1 ∧
      errorConds l1 = [e1] ∧
      (SetProjectClaimCondition
        (SetProjectClaimCondition (NewCustomResourceAdapter claimDel) storeEx
          ConditionTrue "a" "ma" 1).adapter
        (SetProjectClaimCondition (NewCustomResourceAdapter claimDel) storeEx
          ConditionTrue "a" "ma" 1).store
        ConditionTrue "b" "mb" 2).adapter.projectClaim.conditions = some l2 ∧
      errorConds l2 = [e2] ∧
      e2.reason = "b" ∧ e2.message = "mb" ∧ e2.status = ConditionTrue ∧
      e2.lastTransitionTime = e1.lastTransitionTime) ∧
    (∃ (e' : ProjectClaimCondition) (l' : List ProjectClaimCondition),
      (SetProjectClaimCondition
        (NewCustomResourceAdapter { claimEx with conditions := some [condTrueEx] }) storeEx
        ConditionFalse "rx" "mx" 7).adapter.projectClaim.conditions = some l' ∧
      errorConds l' = [e'] ∧ e'.lastTransitionTime = 7 ∧ e'.status = ConditionFalse ∧
      e'.reason = "rx" ∧ e'.message = "mx") := by
  constructor
  · exact (setProjectClaimCondition_single_slot (NewCustomResourceAdapter claimDel) storeEx
      [] rfl (by decide)).1 "a" "ma" "b" "mb" 1 2 (by decide)
  · exact (setProjectClaimCondition_single_slot
      (NewCustomResourceAdapter { claimEx with conditions := some [condTrueEx] }) storeEx
      [condTrueEx] rfl (by decide)).2 ConditionFalse "rx" "mx" 7 condTrueEx
      (by decide) (by decide)
